import Mathlib

/-
  Verification of the character/combat core of the `vigilante` repository
  (src/Source/character/Character.cc) against its natural-language spec.

  Modelling conventions:
  * C++ floats are embedded as rationals (ℚ); machine ints as ℤ.
  * The mutable `Character` object is a Lean structure; each member
    function becomes a pure function returning the updated structure
    (and its C++ return value where present).
  * External collaborators (HUD, audio, visual fx, the physics engine's
    body, the callback manager's clock) are modelled only through the
    state they read or write on the character itself; scheduled callbacks
    are modelled by their firing times and the ids tracked by the
    character, exactly as `Character.cc` tracks them.
-/

namespace Vigilante

/-- Character state enum, from Character.h's `Character::State`
    (the members named by the `switch` in `Character::update` and by
    `determineState` / `determineAttackState`). -/
inductive State where
  | IDLE
  | RUNNING
  | RUNNING_START
  | RUNNING_STOP
  | JUMPING
  | FALLING
  | FALLING_GETUP
  | CROUCHING
  | DODGING_BACKWARD
  | DODGING_FORWARD
  | ATTACKING
  | ATTACKING_UNARMED
  | ATTACKING_UNARMED_CROUCH
  | ATTACKING_UNARMED_MIDAIR
  | ATTACKING_CROUCH
  | ATTACKING_FORWARD
  | ATTACKING_MIDAIR
  | ATTACKING_MIDAIR_DOWNWARD
  | ATTACKING_UPWARD
  | SPELLCAST
  | SPELLCAST2
  | SPELLCAST3
  | BLOCKING
  | BLOCKING_HIT
  | INTRO
  | STUNNED
  | TAKE_DAMAGE
  | KILLED
  | FORCE_UPDATE
  deriving DecidableEq, Repr

/-- The slice of `Character::Profile` the verified operations touch. -/
structure Profile where
  health : Int
  fullHealth : Int
  magicka : Int
  fullMagicka : Int
  stamina : Int
  fullStamina : Int
  baseMeleeDamage : Int
  moveSpeed : ℚ
  jumpHeight : ℚ
  attackForce : ℚ
  attackDelay : ℚ
  deriving DecidableEq, Repr

/-- The flags of a damage source that `Character::receiveDamage` reads
    (`source->isSetToKill() || source->isKilled()`). -/
structure SourceFlags where
  isSetToKill : Bool
  isKilled : Bool
  deriving DecidableEq, Repr

/-- An entry of `_inRangeTargets` as seen by `Character::attack`
    (identity plus the one flag the attack loop reads). -/
structure InRangeTarget where
  id : Nat
  isInvincible : Bool
  deriving DecidableEq, Repr

/-- The character state mutated by the verified member functions of
    `Character.cc`. Field names keep the source's names minus the
    leading underscore. -/
structure Character where
  profile : Profile
  isShownOnMap : Bool
  isKilled : Bool
  isSetToKill : Bool
  isInvincible : Bool
  isBlocking : Bool
  isHitWhileBlocking : Bool
  isTakingDamage : Bool
  isTakingDamageFromTraps : Bool
  isStunned : Bool
  isRunningIntroAnimation : Bool
  isGettingUpFromFalling : Bool
  isAttacking : Bool
  isUsingSkill : Bool
  isDodgingBackward : Bool
  isDodgingForward : Bool
  isJumping : Bool
  isCrouching : Bool
  isStartRunning : Bool
  isStopRunning : Bool
  isFacingRight : Bool
  isOnGround : Bool
  isAlerted : Bool
  /-- Embedding of `_body->GetLinearVelocity().x` -/
  vx : ℚ
  /-- Embedding of `_body->GetLinearVelocity().y` -/
  vy : ℚ
  /-- Embedding of `_previousBodyVelocity.x` -/
  prevVx : ℚ
  /-- Embedding of `_previousBodyVelocity.y` -/
  prevVy : ℚ
  overridingAttackState : Option State
  currentState : State
  previousState : State
  /-- whether `_equipmentSlots[Equipment::Type::WEAPON]` is non-null -/
  hasWeaponEquipped : Bool
  /-- the equipped weapon's `bonusPhysicalDamage` (0 when unarmed) -/
  weaponBonusPhysicalDamage : Int
  /-- whether the profile defines a dedicated unarmed attack animation
      (`hasUnarmedAttackAnimation()` in the header) -/
  hasUnarmedAttackAnimation : Bool
  statsRegenTimer : ℚ
  baseRegenDeltaHealth : Int
  baseRegenDeltaMagicka : Int
  baseRegenDeltaStamina : Int
  /-- Embedding of `_body->SetAwake` state, written by `stopMotion` -/
  bodyAwake : Bool
  /-- Embedding of `_bodySprite->isFlippedX()` -/
  spriteFlippedX : Bool
  /-- how many times `redefineWeaponFixture` has been invoked (the
      weapon fixture is rebuilt on each sprite flip) -/
  weaponFixtureRebuildCount : Nat
  /-- the state whose animation `runAnimation` last dispatched, if any
      transition has been dispatched -/
  dispatchedAnimation : Option State
  /-- Embedding of `_inRangeTargets` -/
  inRangeTargets : List InRangeTarget
  /-- ids held in `_cancelAttackCallbacks` -/
  cancelAttackCallbackIds : List Nat
  /-- ids held in `_inflictDamageCallbacks` -/
  inflictDamageCallbackIds : List Nat
  /-- fresh-id counter standing for `CallbackManager`'s id allocation -/
  nextCallbackId : Nat
  /-- whether `DynamicActor::setCategoryBits(_fixtures[BODY], kDestroyed)`
      has been applied (lethal branch of `receiveDamage`) -/
  bodyFixtureMarkedDestroyed : Bool
  deriving DecidableEq, Repr

/-- Embedding of `Character::determineAttackState` (Character.cc lines 483-496). -/
def determineAttackState (c : Character) : State :=
  match c.overridingAttackState with
  | some s => s
  | none =>
    let isUnarmed := !c.hasWeaponEquipped && c.hasUnarmedAttackAnimation
    if c.isCrouching then
      if isUnarmed then State.ATTACKING_UNARMED_CROUCH else State.ATTACKING_CROUCH
    else if c.isJumping then
      if isUnarmed then State.ATTACKING_UNARMED_MIDAIR else State.ATTACKING_MIDAIR
    else
      if isUnarmed then State.ATTACKING_UNARMED else State.ATTACKING

/-- Embedding of `Character::determineState` (Character.cc lines 445-481). -/
def determineState (c : Character) : State :=
  if c.isSetToKill then State.KILLED
  else if c.isRunningIntroAnimation then State.INTRO
  else if c.isStunned then State.STUNNED
  else if c.isTakingDamage then State.TAKE_DAMAGE
  else if c.isGettingUpFromFalling then State.FALLING_GETUP
  else if c.isHitWhileBlocking then State.BLOCKING_HIT
  else if c.isBlocking then State.BLOCKING
  else if c.isAttacking then determineAttackState c
  else if c.isDodgingBackward then State.DODGING_BACKWARD
  else if c.isDodgingForward then State.DODGING_FORWARD
  else if decide (c.vy < -(5/2 : ℚ)) then State.FALLING
  else if c.isJumping then State.JUMPING
  else if c.isCrouching then State.CROUCHING
  else if c.isStartRunning then State.RUNNING_START
  else if c.isStopRunning then State.RUNNING_STOP
  else if decide (|c.vx| > (1/100 : ℚ)) || decide (|c.prevVx| > (1/100 : ℚ)) then State.RUNNING
  else State.IDLE

/-- Embedding of `Character::maybeOverrideCurrentStateWithAttackingMidairState`
    (Character.cc lines 498-502). -/
def maybeOverrideCurrentStateWithAttackingMidairState (c : Character) : Character :=
  if c.previousState = State.ATTACKING_MIDAIR && c.currentState = State.ATTACKING then
    { c with currentState := State.ATTACKING_MIDAIR }
  else
    c

/-- Embedding of `Character::stopRunning` (Character.cc lines 599-604): raises the
    flag and schedules a callback clearing it after the RUNNING_STOP
    animation; the clearing callback's later firing is outside this
    per-tick model. -/
def stopRunning (c : Character) : Character :=
  { c with isStopRunning := true, nextCallbackId := c.nextCallbackId + 1 }

/-- Embedding of `Character::maybeOverrideCurrentStateWithStopRunningState`
    (Character.cc lines 504-523). Note `needToStopRunning` is
    initialized to `true` and only ever re-assigned `true`, exactly as
    in the source. -/
def maybeOverrideCurrentStateWithStopRunningState (c : Character) : Character :=
  let needToStopRunning := true
  let needToStopRunning :=
    if |c.vx| ≥ c.profile.moveSpeed * 4 then true else needToStopRunning
  if !needToStopRunning then
    c
  else
    let isMovingForward := (c.isFacingRight && c.vx > 0) || (!c.isFacingRight && c.vx < 0)
    if |c.prevVx| ≥ (1/100 : ℚ) && |c.vx| < (1/100 : ℚ) && isMovingForward then
      stopRunning c
    else
      c

/-- Spec-side priority table, transcribed from the spec's transition
    algorithm sentence (spec §4.3): each entry is a guard paired with
    the state returned when the guard is the first to hold; the
    attacking entry delegates to the attack sub-resolution. -/
def specStatePriority (c : Character) : List (Bool × State) :=
  [ (c.isSetToKill, State.KILLED),
    (c.isRunningIntroAnimation, State.INTRO),
    (c.isStunned, State.STUNNED),
    (c.isTakingDamage, State.TAKE_DAMAGE),
    (c.isGettingUpFromFalling, State.FALLING_GETUP),
    (c.isHitWhileBlocking, State.BLOCKING_HIT),
    (c.isBlocking, State.BLOCKING),
    (c.isAttacking, determineAttackState c),
    (c.isDodgingBackward, State.DODGING_BACKWARD),
    (c.isDodgingForward, State.DODGING_FORWARD),
    (decide (c.vy < -(5/2 : ℚ)), State.FALLING),
    (c.isJumping, State.JUMPING),
    (c.isCrouching, State.CROUCHING),
    (c.isStartRunning, State.RUNNING_START),
    (c.isStopRunning, State.RUNNING_STOP),
    (decide (|c.vx| > (1/100 : ℚ)) || decide (|c.prevVx| > (1/100 : ℚ)), State.RUNNING) ]

/-- First-match resolution over a guard/state table, defaulting to IDLE;
    this is the spec's "highest priority first, first match wins". -/
def firstMatch : List (Bool × State) → State
  | [] => State.IDLE
  | (b, s) :: rest => if b then s else firstMatch rest

/-- C2: per-tick state resolution returns the first matching state in
    exactly the spec's priority order — KILLED, INTRO, STUNNED,
    TAKE_DAMAGE, FALLING_GETUP, BLOCKING_HIT, BLOCKING, the attacking
    sub-resolution, DODGING_BACKWARD, DODGING_FORWARD, FALLING
    (vertical velocity < -2.5), JUMPING, CROUCHING, RUNNING_START,
    RUNNING_STOP, RUNNING (|vx| or |previous vx| > 0.01), with IDLE as
    the default. -/
theorem determineState_matches_priority_spec (c : Character) :
    determineState c = firstMatch (specStatePriority c) := rfl

/-- Embedding of `Character::cancelAttack` (Character.cc lines 858-877): clears the
    attacking flag and the attack-state override, cancels every tracked
    attack-clearing and damage-infliction callback, and empties both
    tracked id sets. -/
def cancelAttack (c : Character) : Character :=
  { c with
    isAttacking := false,
    overridingAttackState := none,
    cancelAttackCallbackIds := [],
    inflictDamageCallbackIds := [] }

/-- The source-dead test of `Character::receiveDamage`
    (`source && (source->isSetToKill() || source->isKilled())`). -/
def sourceIsDead : Option SourceFlags → Bool
  | none => false
  | some s => s.isSetToKill || s.isKilled

/-- Result of `Character::receiveDamage`: its boolean return value, the
    receiver's updated state, and the two externally visible effects of
    the accepted non-blocking path. -/
structure ReceiveDamageResult where
  accepted : Bool
  receiver : Character
  /-- whether the lethal branch cleared the source's (and its allies')
      lock-on/in-range references to this character -/
  sourceTargetsCleared : Bool
  /-- whether the hit fx and the floating damage number were shown -/
  hitFxShown : Bool
  deriving DecidableEq, Repr

/-- Embedding of `Character::receiveDamage(Character*, int, float)` (Character.cc
    lines 1003-1065). The source is passed as a snapshot of the two
    flags the function reads; `takeDamageDuration` only parameterizes
    the scheduled flag-clearing callback, which fires after this call
    returns. -/
def receiveDamage (c : Character) (source : Option SourceFlags) (damage : Int)
    (takeDamageDuration : ℚ) : ReceiveDamageResult :=
  let _ := takeDamageDuration
  if c.isSetToKill || c.isInvincible then
    ⟨false, c, false, false⟩
  else if sourceIsDead source then
    ⟨false, c, false, false⟩
  else if c.isBlocking then
    -- converts the hit into BLOCKING_HIT for the block-hit animation's
    -- duration and deals no health loss
    ⟨true, { c with isHitWhileBlocking := true, nextCallbackId := c.nextCallbackId + 1 },
     false, false⟩
  else
    let c1 := { c with profile := { c.profile with health := c.profile.health - damage } }
    let c2 := { c1 with isTakingDamageFromTraps := source.isNone }
    let c3 :=
      if source.isSome then
        { c2 with isTakingDamage := true, nextCallbackId := c2.nextCallbackId + 1 }
      else
        c2
    let c4 := cancelAttack c3
    if c4.profile.health ≤ 0 then
      ⟨true,
       { c4 with
         profile := { c4.profile with health := 0 },
         isSetToKill := true,
         bodyFixtureMarkedDestroyed := true },
       source.isSome, true⟩
    else
      ⟨true, c4, false, true⟩

/-- Embedding of `Character::receiveDamage(Character*, int)` (Character.cc lines
    1067-1070): forwards with `kNumSecCantMove` = 0.2. -/
def receiveDamageDefaultDuration (c : Character) (source : Option SourceFlags)
    (damage : Int) : ReceiveDamageResult :=
  receiveDamage c source damage (1/5)

/-- Embedding of `Character::receiveDamage(int)` (Character.cc lines 1072-1074):
    damage from an untyped/trap source, i.e. a null source pointer. -/
def receiveDamageFromTrap (c : Character) (damage : Int) : ReceiveDamageResult :=
  receiveDamageDefaultDuration c none damage

/-- Embedding of `Character::regenHealth` (Character.cc lines 1343-1349). -/
def regenHealth (c : Character) (deltaHealth : Int) : Character :=
  let health := c.profile.health + deltaHealth
  let health := if health > c.profile.fullHealth then c.profile.fullHealth else health
  { c with profile := { c.profile with health := health } }

/-- Embedding of `Character::regenMagicka` (Character.cc lines 1351-1357). -/
def regenMagicka (c : Character) (deltaMagicka : Int) : Character :=
  let magicka := c.profile.magicka + deltaMagicka
  let magicka := if magicka > c.profile.fullMagicka then c.profile.fullMagicka else magicka
  { c with profile := { c.profile with magicka := magicka } }

/-- Embedding of `Character::regenStamina` (Character.cc lines 1359-1365). -/
def regenStamina (c : Character) (deltaStamina : Int) : Character :=
  let stamina := c.profile.stamina + deltaStamina
  let stamina := if stamina > c.profile.fullStamina then c.profile.fullStamina else stamina
  { c with profile := { c.profile with stamina := stamina } }

/-- One event of a damage/regeneration history: either a
    `receiveDamage` call (with its source snapshot, damage amount and
    take-damage duration) or a periodic `regenHealth` call. -/
inductive HealthOp where
  | damage (source : Option SourceFlags) (amount : Int) (takeDamageDuration : ℚ)
  | regen (amount : Int)
  deriving DecidableEq, Repr

/-- Applying one history event to a character. -/
def applyHealthOp (c : Character) (op : HealthOp) : Character :=
  match op with
  | .damage source amount dur => (receiveDamage c source amount dur).receiver
  | .regen amount => regenHealth c amount

/-- Event carries a non-negative amount. -/
def healthOpNonneg : HealthOp → Bool
  | .damage _ amount _ => decide (0 ≤ amount)
  | .regen amount => decide (0 ≤ amount)

theorem receiveDamage_health_bounds (c : Character) (source : Option SourceFlags)
    (damage : Int) (dur : ℚ) (hd : 0 ≤ damage)
    (h0 : 0 ≤ c.profile.health) (h1 : c.profile.health ≤ c.profile.fullHealth) :
    0 ≤ (receiveDamage c source damage dur).receiver.profile.health ∧
      (receiveDamage c source damage dur).receiver.profile.health ≤
        (receiveDamage c source damage dur).receiver.profile.fullHealth ∧
      (receiveDamage c source damage dur).receiver.profile.fullHealth =
        c.profile.fullHealth := by
  unfold receiveDamage
  dsimp only
  split_ifs <;> simp_all [cancelAttack] <;> omega

theorem regenHealth_health_bounds (c : Character) (delta : Int) (hd : 0 ≤ delta)
    (h0 : 0 ≤ c.profile.health) (h1 : c.profile.health ≤ c.profile.fullHealth) :
    0 ≤ (regenHealth c delta).profile.health ∧
      (regenHealth c delta).profile.health ≤ (regenHealth c delta).profile.fullHealth ∧
      (regenHealth c delta).profile.fullHealth = c.profile.fullHealth := by
  unfold regenHealth
  dsimp only
  split_ifs <;> simp_all <;> omega

/-- C1: for every character whose health starts within [0, fullHealth],
    after any sequence of `receiveDamage` calls with non-negative damage
    and `regenHealth` calls with non-negative delta, health remains
    within [0, fullHealth]: `receiveDamage` floors the result at 0 and
    `regenHealth` caps it at fullHealth. -/
theorem health_stays_in_bounds (c : Character) (ops : List HealthOp)
    (h0 : 0 ≤ c.profile.health) (h1 : c.profile.health ≤ c.profile.fullHealth)
    (hops : ∀ op ∈ ops, healthOpNonneg op = true) :
    0 ≤ (ops.foldl applyHealthOp c).profile.health ∧
      (ops.foldl applyHealthOp c).profile.health ≤
        (ops.foldl applyHealthOp c).profile.fullHealth := by
  induction ops generalizing c with
  | nil => exact ⟨h0, h1⟩
  | cons op rest ih =>
    have hop : healthOpNonneg op = true := hops op (List.mem_cons_self op rest)
    have hrest : ∀ o ∈ rest, healthOpNonneg o = true :=
      fun o ho => hops o (List.mem_cons_of_mem op ho)
    have hstep : 0 ≤ (applyHealthOp c op).profile.health ∧
        (applyHealthOp c op).profile.health ≤ (applyHealthOp c op).profile.fullHealth := by
      cases op with
      | damage source amount dur =>
        have hamt : 0 ≤ amount := by simpa [healthOpNonneg] using hop
        have := receiveDamage_health_bounds c source amount dur hamt h0 h1
        exact ⟨this.1, this.2.1⟩
      | regen amount =>
        have hamt : 0 ≤ amount := by simpa [healthOpNonneg] using hop
        have := regenHealth_health_bounds c amount hamt h0 h1
        exact ⟨this.1, this.2.1⟩
    simpa using ih (applyHealthOp c op) hstep.1 hstep.2 hrest

/-- C4: `receiveDamage` returns false and leaves the receiver fully
    unchanged (and performs no external effect) whenever the receiver
    is already marked for death or invincible, or the non-null source
    is itself killed or marked for death. -/
theorem receiveDamage_rejected_no_change (c : Character) (source : Option SourceFlags)
    (damage : Int) (dur : ℚ)
    (h : c.isSetToKill = true ∨ c.isInvincible = true ∨ sourceIsDead source = true) :
    receiveDamage c source damage dur = ⟨false, c, false, false⟩ := by
  unfold receiveDamage
  rcases h with h | h | h <;> simp [h]

/-- Embedding of `Character::getDamageOutput` (Character.cc lines 1334-1341): base
    melee damage plus the equipped weapon's bonus physical damage plus
    a symmetric random jitter; the value of `rand_util::randInt(-5, 5)`
    is passed in explicitly. -/
def getDamageOutput (c : Character) (jitter : Int) : Int :=
  c.profile.baseMeleeDamage +
    (if c.hasWeaponEquipped then c.weaponBonusPhysicalDamage else 0) + jitter

/-- Modelled from the spec: `Character::isAttackState` is declared in
    Character.h, which is not among the provided sources; per the spec,
    the attack states are ATTACKING plus its 8 specialized variants. -/
def isAttackState (s : State) : Bool :=
  match s with
  | State.ATTACKING => true
  | State.ATTACKING_UNARMED => true
  | State.ATTACKING_UNARMED_CROUCH => true
  | State.ATTACKING_UNARMED_MIDAIR => true
  | State.ATTACKING_CROUCH => true
  | State.ATTACKING_FORWARD => true
  | State.ATTACKING_MIDAIR => true
  | State.ATTACKING_MIDAIR_DOWNWARD => true
  | State.ATTACKING_UPWARD => true
  | _ => false

/-- Embedding of `Character::isAttackingDisallowed` (Character.cc lines 582-584);
    the `isAttacking()` accessor (Character.h, not provided) is
    modelled as the `_isAttacking` flag the spec describes. -/
def isAttackingDisallowed (c : Character) : Bool :=
  c.isAttacking || c.isUsingSkill || c.isGettingUpFromFalling || c.isStunned ||
    c.isTakingDamage || c.isBlocking || c.isRunningIntroAnimation

/-- Result of `Character::inflictDamage(Character*, int, int, float)`:
    the boolean return value, the attacker's updated state (tracked
    callback ids), and the firing delays, in simulation seconds after
    the call, of the scheduled deferred damage applications. -/
structure InflictDamageResult where
  returnValue : Bool
  attacker : Character
  scheduledDelays : List ℚ
  deriving DecidableEq, Repr

/-- Embedding of `Character::inflictDamage(Character*, int, int, float)`
    (Character.cc lines 963-1001): rejects a null target or a zero hit
    count; otherwise schedules `numTimesInflictDamage` deferred damage
    applications, the i-th after `attackDelay + damageInflictionInterval * i`
    seconds, tracking each callback id in `_inflictDamageCallbacks`.
    The target is identified by id; `damage` is captured by the
    scheduled closures and does not affect the attacker's state. -/
def inflictDamageMulti (c : Character) (target : Option Nat) (damage : Int)
    (numTimesInflictDamage : Int) (damageInflictionInterval : ℚ) : InflictDamageResult :=
  let _ := damage
  match target with
  | none => ⟨false, c, []⟩
  | some _ =>
    if numTimesInflictDamage = 0 then
      ⟨false, c, []⟩
    else
      let n := numTimesInflictDamage.toNat
      let delays := (List.range n).map fun (i : ℕ) =>
        c.profile.attackDelay + damageInflictionInterval * (i : ℚ)
      let ids := (List.range n).map fun i => c.nextCallbackId + i
      ⟨true,
       { c with
         inflictDamageCallbackIds := c.inflictDamageCallbackIds ++ ids,
         nextCallbackId := c.nextCallbackId + n },
       delays⟩

/-- The guard at the head of each deferred damage callback scheduled by
    `inflictDamage` (Character.cc line 977): the application is skipped
    exactly when `_isTakingDamage || !_inRangeTargets.contains(target)`
    holds on the attacker at firing time. -/
def deferredHitSkipped (attackerIsTakingDamage : Bool) (targetStillInRange : Bool) : Bool :=
  attackerIsTakingDamage || !targetStillInRange

/-- Embedding of `Character::attack` (Character.cc lines 804-856): rejects an
    unrecognized attack state or a disallowed attack; otherwise raises
    the attacking flag, pins the override state for non-default attack
    variants, schedules (and tracks) the attack-clearing callback, and
    invokes multi-hit damage infliction on every in-range target that
    is not invincible. Returns false when no target is in range. -/
def attack (c : Character) (attackState : State) (numTimesInflictDamage : Int)
    (damageInflictionInterval : ℚ) (jitter : Int) : Bool × Character :=
  if !isAttackState attackState then
    (false, c)
  else if isAttackingDisallowed c then
    (false, c)
  else
    let c1 := { c with isAttacking := true }
    let c2 :=
      if attackState ≠ State.ATTACKING then
        { c1 with overridingAttackState := some attackState }
      else
        c1
    let c3 :=
      { c2 with
        cancelAttackCallbackIds := c2.cancelAttackCallbackIds ++ [c2.nextCallbackId],
        nextCallbackId := c2.nextCallbackId + 1 }
    if c3.inRangeTargets.isEmpty then
      (false, c3)
    else
      let c4 := c3.inRangeTargets.foldl
        (fun acc t =>
          if t.isInvincible then
            acc
          else
            (inflictDamageMulti acc (some t.id) (getDamageOutput acc jitter)
              numTimesInflictDamage damageInflictionInterval).attacker)
        c3
      (true, c4)

/-- C3: for every `inflictDamage(target, damage, hitCount, hitInterval)`
    call with a non-null target and hitCount > 0, exactly hitCount
    deferred damage applications are scheduled, the i-th firing at
    `attackDelay + hitInterval * i` seconds after the call; a deferred
    application is skipped exactly when, at its firing time, the
    attacker is taking damage or the target has left the attacker's
    in-range set. -/
theorem inflictDamage_schedules_hits (c : Character) (target : Nat) (damage : Int)
    (hitCount : Int) (hitInterval : ℚ) (hpos : 0 < hitCount) :
    (inflictDamageMulti c (some target) damage hitCount hitInterval).returnValue = true ∧
    (inflictDamageMulti c (some target) damage hitCount hitInterval).scheduledDelays.length
      = hitCount.toNat ∧
    (∀ i : Nat, i < hitCount.toNat →
      (inflictDamageMulti c (some target) damage hitCount hitInterval).scheduledDelays[i]? =
        some (c.profile.attackDelay + hitInterval * ((i : ℕ) : ℚ))) ∧
    (∀ td inRange : Bool,
      deferredHitSkipped td inRange = true ↔ (td = true ∨ inRange = false)) := by
  have hne : hitCount ≠ 0 := ne_of_gt hpos
  have heq : inflictDamageMulti c (some target) damage hitCount hitInterval =
      ⟨true,
       { c with
         inflictDamageCallbackIds := c.inflictDamageCallbackIds ++
           ((List.range hitCount.toNat).map fun i => c.nextCallbackId + i),
         nextCallbackId := c.nextCallbackId + hitCount.toNat },
       (List.range hitCount.toNat).map fun (i : ℕ) =>
         c.profile.attackDelay + hitInterval * (i : ℚ)⟩ := by
    unfold inflictDamageMulti
    simp only [if_neg hne]
  refine ⟨by rw [heq], ?_, ?_, ?_⟩
  · rw [heq]
    dsimp only
    rw [List.length_map, List.length_range]
  · intro i hi
    rw [heq]
    dsimp only
    simp [List.getElem?_map, List.getElem?_range, hi]
  · decide

/-- The fields of a character that `determineState` and
    `determineAttackState` read, other than velocity, dodge, jump,
    crouch and run flags. -/
def resolutionFields (c : Character) :
    Bool × Bool × Bool × Bool × Bool × Bool × Bool × Bool × Option State :=
  (c.isSetToKill, c.isRunningIntroAnimation, c.isStunned, c.isTakingDamage,
   c.isGettingUpFromFalling, c.isHitWhileBlocking, c.isBlocking, c.isAttacking,
   c.overridingAttackState)

theorem inflictDamageMulti_preserves_resolution_fields (c : Character)
    (target : Option Nat) (damage n : Int) (iv : ℚ) :
    resolutionFields (inflictDamageMulti c target damage n iv).attacker =
      resolutionFields c := by
  unfold inflictDamageMulti
  cases target with
  | none => rfl
  | some t =>
    dsimp only
    split_ifs <;> rfl

theorem attack_damage_loop_preserves_resolution_fields (ts : List InRangeTarget)
    (c : Character) (n : Int) (iv : ℚ) (j : Int) :
    resolutionFields (ts.foldl
      (fun acc t =>
        if t.isInvincible then
          acc
        else
          (inflictDamageMulti acc (some t.id) (getDamageOutput acc j) n iv).attacker)
      c) = resolutionFields c := by
  induction ts generalizing c with
  | nil => rfl
  | cons t rest ih =>
    simp only [List.foldl_cons]
    rw [ih]
    split_ifs
    · rfl
    · exact inflictDamageMulti_preserves_resolution_fields ..

theorem attack_midair_sets_override (c : Character)
    (hallowed : isAttackingDisallowed c = false) (n : Int) (iv : ℚ) (j : Int) :
    resolutionFields (attack c State.ATTACKING_MIDAIR n iv j).2 =
      (c.isSetToKill, c.isRunningIntroAnimation, c.isStunned, c.isTakingDamage,
       c.isGettingUpFromFalling, c.isHitWhileBlocking, c.isBlocking, true,
       some State.ATTACKING_MIDAIR) := by
  unfold attack
  rw [show (!isAttackState State.ATTACKING_MIDAIR) = false from rfl]
  rw [if_neg (by simp)]
  rw [if_neg (by simp [hallowed])]
  dsimp only
  rw [if_pos (by decide : State.ATTACKING_MIDAIR ≠ State.ATTACKING)]
  split_ifs with hempty
  · rfl
  · rw [attack_damage_loop_preserves_resolution_fields]
    rfl

theorem determineState_of_midair_override (d : Character)
    (hd : resolutionFields d =
      (false, false, false, false, false, false, false, true,
        some State.ATTACKING_MIDAIR)) :
    determineState d = State.ATTACKING_MIDAIR := by
  simp only [resolutionFields, Prod.mk.injEq] at hd
  obtain ⟨h1, h2, h3, h4, h5, h6, h7, h8, h9⟩ := hd
  simp [determineState, determineAttackState, h1, h2, h3, h4, h5, h6, h7, h8, h9]

/-- C7: an airborne character that successfully initiates
    `attack(ATTACKING_MIDAIR, ...)` resolves to ATTACKING_MIDAIR on the
    next tick (the pinned override makes `determineAttackState` return
    it); and independently, whenever the previous tick's state was
    ATTACKING_MIDAIR and the freshly computed state collapsed to plain
    ATTACKING, the post-resolution override forces it back to
    ATTACKING_MIDAIR. -/
theorem midair_attack_state_persists (c : Character)
    (hjump : c.isJumping = true)
    (hkill : c.isSetToKill = false) (hbh : c.isHitWhileBlocking = false)
    (hallowed : isAttackingDisallowed c = false)
    (n : Int) (iv : ℚ) (j : Int) :
    determineState (attack c State.ATTACKING_MIDAIR n iv j).2 = State.ATTACKING_MIDAIR ∧
    (∀ d : Character, d.previousState = State.ATTACKING_MIDAIR →
      d.currentState = State.ATTACKING →
      (maybeOverrideCurrentStateWithAttackingMidairState d).currentState =
        State.ATTACKING_MIDAIR) := by
  have hallowed0 := hallowed
  simp only [isAttackingDisallowed, Bool.or_eq_false_iff] at hallowed
  obtain ⟨⟨⟨⟨⟨⟨hatk, husk⟩, hguf⟩, hstun⟩, htd⟩, hblk⟩, hintro⟩ := hallowed
  constructor
  · apply determineState_of_midair_override
    rw [attack_midair_sets_override c hallowed0 n iv j]
    rw [hkill, hintro, hstun, htd, hguf, hbh, hblk]
  · intro d h1 h2
    simp [maybeOverrideCurrentStateWithAttackingMidairState, h1, h2]

/-- The item-definition data `addItem`/`removeItem` read: definition
    identity is the profile's `jsonFileName`; `itemType` selects the
    per-type inventory bucket; the equipment fields feed `removeItem`'s
    currently-equipped check. `amount` is the amount carried by the
    incoming object (overwritten by `addItem`). -/
structure ItemObj where
  jsonFileName : String
  itemType : Nat
  isEquipment : Bool
  equipmentType : Nat
  amount : Int
  deriving DecidableEq, Repr

/-- The inventory/equipment ledger of a character: `_items` (at most
    one canonical instance per definition, keyed by jsonFileName, with
    its stored amount), `_inventory` (per-type buckets of non-owning
    references to canonical instances, membership keyed by definition
    identity), and `_equipmentSlots`. -/
structure Ledger where
  items : List (String × Int)
  inventory : Nat → String → Bool
  equipmentSlots : Nat → Option String

/-- Embedding of `Character::getExistingItemObj` (Character.cc lines 1145-1151):
    keyed lookup of the canonical instance by jsonFileName, returning
    its stored amount (the state of the canonical object). -/
def getExistingItemObj (items : List (String × Int)) (name : String) : Option Int :=
  match items with
  | [] => none
  | (k, a) :: rest => if k = name then some a else getExistingItemObj rest name

/-- Embedding of `existingItemObj->setAmount(...)`: overwrite the stored amount of
    the canonical entry for `name`. -/
def setItemAmount (items : List (String × Int)) (name : String) (amt : Int) :
    List (String × Int) :=
  match items with
  | [] => []
  | (k, a) :: rest =>
    if k = name then (k, amt) :: rest else (k, a) :: setItemAmount rest name amt

/-- Embedding of `_items.erase(jsonFileName)`: drop the canonical entry for `name`. -/
def eraseItem (items : List (String × Int)) (name : String) : List (String × Int) :=
  match items with
  | [] => []
  | (k, a) :: rest =>
    if k = name then rest else (k, a) :: eraseItem rest name

/-- Embedding of `_inventory[type].insert(obj)` (set semantics). -/
def bucketInsert (inv : Nat → String → Bool) (t : Nat) (name : String) :
    Nat → String → Bool :=
  fun t2 n2 => if t2 = t ∧ n2 = name then true else inv t2 n2

/-- Embedding of `_inventory[type].erase(obj)` (set semantics). -/
def bucketErase (inv : Nat → String → Bool) (t : Nat) (name : String) :
    Nat → String → Bool :=
  fun t2 n2 => if t2 = t ∧ n2 = name then false else inv t2 n2

/-- Embedding of `Character::addItem` (Character.cc lines 1081-1104): rejects a null
    item or zero amount; if a canonical instance with the same
    definition identity exists, adds `amount` to its stored amount and
    discards the incoming object, else installs the incoming object as
    canonical with `amount`; either way inserts the canonical instance
    into the per-type inventory bucket. -/
def addItem (led : Ledger) (item : Option ItemObj) (amount : Int) : Bool × Ledger :=
  match item with
  | none => (false, led)
  | some it =>
    if amount = 0 then
      (false, led)
    else
      match getExistingItemObj led.items it.jsonFileName with
      | some oldAmount =>
        (true,
         { led with
           items := setItemAmount led.items it.jsonFileName (oldAmount + amount),
           inventory := bucketInsert led.inventory it.itemType it.jsonFileName })
      | none =>
        (true,
         { led with
           items := led.items ++ [(it.jsonFileName, amount)],
           inventory := bucketInsert led.inventory it.itemType it.jsonFileName })

/-- Embedding of `Character::removeItem` (Character.cc lines 1106-1140): rejects a
    null item, zero amount, or an absent definition; decrements the
    stored amount (the C++ asserts the result is non-negative); at zero
    removes the canonical instance from its inventory bucket and, unless
    the instance is an Equipment currently occupying its equip slot,
    erases it from the ledger. -/
def removeItem (led : Ledger) (item : Option ItemObj) (amount : Int) : Bool × Ledger :=
  match item with
  | none => (false, led)
  | some it =>
    if amount = 0 then
      (false, led)
    else
      match getExistingItemObj led.items it.jsonFileName with
      | none => (false, led)
      | some oldAmount =>
        let finalAmount := oldAmount - amount
        let items1 := setItemAmount led.items it.jsonFileName finalAmount
        if finalAmount = 0 then
          let inventory1 := bucketErase led.inventory it.itemType it.jsonFileName
          if it.isEquipment = true ∧
              led.equipmentSlots it.equipmentType = some it.jsonFileName then
            (true, { led with items := items1, inventory := inventory1 })
          else
            (true,
             { led with items := eraseItem items1 it.jsonFileName,
                        inventory := inventory1 })
        else
          (true, { led with items := items1 })

theorem getExistingItemObj_eq_none_iff (items : List (String × Int)) (name : String) :
    getExistingItemObj items name = none ↔ ∀ p ∈ items, p.1 ≠ name := by
  induction items with
  | nil => simp [getExistingItemObj]
  | cons p rest ih =>
    obtain ⟨k, a⟩ := p
    by_cases hk : k = name <;> simp [getExistingItemObj, hk, ih]

theorem getExistingItemObj_append_fresh (l : List (String × Int)) (name : String)
    (a : Int) (h : ∀ p ∈ l, p.1 ≠ name) :
    getExistingItemObj (l ++ [(name, a)]) name = some a := by
  induction l with
  | nil => simp [getExistingItemObj]
  | cons p rest ih =>
    obtain ⟨k, b⟩ := p
    have hk : k ≠ name := h (k, b) (List.mem_cons_self _ _)
    simp only [List.cons_append, getExistingItemObj, if_neg hk]
    exact ih fun q hq => h q (List.mem_cons_of_mem _ hq)

theorem setItemAmount_append_fresh (l : List (String × Int)) (name : String)
    (a b : Int) (h : ∀ p ∈ l, p.1 ≠ name) :
    setItemAmount (l ++ [(name, a)]) name b = l ++ [(name, b)] := by
  induction l with
  | nil => simp [setItemAmount]
  | cons p rest ih =>
    obtain ⟨k, x⟩ := p
    have hk : k ≠ name := h (k, x) (List.mem_cons_self _ _)
    simp only [List.cons_append, setItemAmount, if_neg hk, List.cons.injEq, true_and]
    exact ih fun q hq => h q (List.mem_cons_of_mem _ hq)

theorem eraseItem_append_fresh (l : List (String × Int)) (name : String) (a : Int)
    (h : ∀ p ∈ l, p.1 ≠ name) :
    eraseItem (l ++ [(name, a)]) name = l := by
  induction l with
  | nil => simp [eraseItem]
  | cons p rest ih =>
    obtain ⟨k, x⟩ := p
    have hk : k ≠ name := h (k, x) (List.mem_cons_self _ _)
    simp only [List.cons_append, eraseItem, if_neg hk, List.cons.injEq, true_and]
    exact ih fun q hq => h q (List.mem_cons_of_mem _ hq)

theorem getExistingItemObj_setItemAmount (items : List (String × Int)) (name : String)
    (a b : Int) (h : getExistingItemObj items name = some a) :
    getExistingItemObj (setItemAmount items name b) name = some b := by
  induction items with
  | nil => simp [getExistingItemObj] at h
  | cons p rest ih =>
    obtain ⟨k, x⟩ := p
    by_cases hk : k = name
    · simp [getExistingItemObj, setItemAmount, hk]
    · simp only [getExistingItemObj, setItemAmount, if_neg hk] at h ⊢
      exact ih h

theorem setItemAmount_setItemAmount (items : List (String × Int)) (name : String)
    (b d : Int) :
    setItemAmount (setItemAmount items name b) name d = setItemAmount items name d := by
  induction items with
  | nil => simp [setItemAmount]
  | cons p rest ih =>
    obtain ⟨k, x⟩ := p
    by_cases hk : k = name <;> simp [setItemAmount, hk, ih]

theorem setItemAmount_self (items : List (String × Int)) (name : String) (a : Int)
    (h : getExistingItemObj items name = some a) :
    setItemAmount items name a = items := by
  induction items with
  | nil => simp [setItemAmount]
  | cons p rest ih =>
    obtain ⟨k, x⟩ := p
    by_cases hk : k = name
    · simp only [getExistingItemObj, if_pos hk, Option.some.injEq] at h
      simp [setItemAmount, hk, h]
    · simp only [getExistingItemObj, if_neg hk] at h
      simp [setItemAmount, hk, ih h]

theorem getExistingItemObj_mem (items : List (String × Int)) (name : String) (a : Int)
    (h : getExistingItemObj items name = some a) : (name, a) ∈ items := by
  induction items with
  | nil => simp [getExistingItemObj] at h
  | cons p rest ih =>
    obtain ⟨k, x⟩ := p
    by_cases hk : k = name
    · simp only [getExistingItemObj, if_pos hk, Option.some.injEq] at h
      subst hk
      subst h
      exact List.mem_cons_self _ _
    · simp only [getExistingItemObj, if_neg hk] at h
      exact List.mem_cons_of_mem _ (ih h)

theorem nodupKeys_eq_of_mem (items : List (String × Int))
    (hnd : (items.map Prod.fst).Nodup) (p q : String × Int)
    (hp : p ∈ items) (hq : q ∈ items) (hkey : p.1 = q.1) : p = q := by
  induction items with
  | nil => cases hp
  | cons r rest ih =>
    simp only [List.map_cons, List.nodup_cons] at hnd
    rcases List.mem_cons.mp hp with hp1 | hp1 <;> rcases List.mem_cons.mp hq with hq1 | hq1
    · rw [hp1, hq1]
    · subst hp1
      exact absurd (hkey ▸ List.mem_map_of_mem Prod.fst hq1) hnd.1
    · subst hq1
      exact absurd (hkey ▸ List.mem_map_of_mem Prod.fst hp1) hnd.1
    · exact ih hnd.2 hp1 hq1

theorem bucketInsert_of_true (inv : Nat → String → Bool) (t : Nat) (name : String)
    (h : inv t name = true) : bucketInsert inv t name = inv := by
  funext t2 n2
  by_cases hc : t2 = t ∧ n2 = name
  · obtain ⟨h1, h2⟩ := hc
    subst h1
    subst h2
    simp [bucketInsert, h]
  · simp [bucketInsert, hc]

theorem bucketErase_bucketInsert_of_false (inv : Nat → String → Bool) (t : Nat)
    (name : String) (h : inv t name = false) :
    bucketErase (bucketInsert inv t name) t name = inv := by
  funext t2 n2
  by_cases hc : t2 = t ∧ n2 = name
  · obtain ⟨h1, h2⟩ := hc
    subst h1
    subst h2
    simp [bucketErase, bucketInsert, h]
  · simp [bucketErase, bucketInsert, hc]

/-- C5: starting from a ledger that does not yet hold the definition,
    calling addItem twice with two item objects whose definitions
    compare equal (same jsonFileName and type) and positive amounts n
    and m leaves exactly one canonical ledger entry for that
    definition, with stored amount n + m — never two entries. -/
theorem addItem_merges_duplicate_definitions (led : Ledger) (it1 it2 : ItemObj)
    (n m : Int) (hn : 0 < n) (hm : 0 < m)
    (hsame : it2.jsonFileName = it1.jsonFileName)
    (hfresh : getExistingItemObj led.items it1.jsonFileName = none) :
    (addItem (addItem led (some it1) n).2 (some it2) m).2.items.countP
        (fun p => p.1 == it1.jsonFileName) = 1 ∧
      (it1.jsonFileName, n + m) ∈
        (addItem (addItem led (some it1) n).2 (some it2) m).2.items := by
  have hn' : n ≠ 0 := ne_of_gt hn
  have hm' : m ≠ 0 := ne_of_gt hm
  have hall : ∀ p ∈ led.items, p.1 ≠ it1.jsonFileName :=
    (getExistingItemObj_eq_none_iff _ _).mp hfresh
  have h1 : (addItem led (some it1) n).2.items = led.items ++ [(it1.jsonFileName, n)] := by
    simp [addItem, hn', hfresh]
  have hex : getExistingItemObj (addItem led (some it1) n).2.items it2.jsonFileName
      = some n := by
    rw [h1, hsame]
    exact getExistingItemObj_append_fresh _ _ _ hall
  have h2 : (addItem (addItem led (some it1) n).2 (some it2) m).2.items =
      led.items ++ [(it1.jsonFileName, n + m)] := by
    set led1 := (addItem led (some it1) n).2 with hled1
    simp only [addItem, if_neg hm', hex]
    rw [h1, hsame]
    exact setItemAmount_append_fresh _ _ _ _ hall
  constructor
  · rw [h2, List.countP_append]
    have hz : led.items.countP (fun p => p.1 == it1.jsonFileName) = 0 :=
      List.countP_eq_zero.mpr (by
        intro p hp
        simpa using hall p hp)
    simp [hz]
  · rw [h2]
    simp

/-- Well-formedness of a ledger with respect to one item definition:
    canonical keys are unique, stored amounts are non-negative, bucket
    membership tracks the presence of a positively stocked canonical
    entry, an equip slot occupied by this definition points at an
    existing canonical entry, and a zero-amount entry exists only while
    the definition is an Equipment occupying its equip slot. Every
    ledger reachable through addItem/removeItem/equip/unequip satisfies
    this. -/
def LedgerWF (led : Ledger) (it : ItemObj) : Prop :=
  (led.items.map Prod.fst).Nodup ∧
  (∀ p ∈ led.items, 0 ≤ p.2) ∧
  (led.inventory it.itemType it.jsonFileName = true ↔
    ∃ p ∈ led.items, p.1 = it.jsonFileName ∧ 0 < p.2) ∧
  (led.equipmentSlots it.equipmentType = some it.jsonFileName →
    ∃ p ∈ led.items, p.1 = it.jsonFileName) ∧
  (∀ p ∈ led.items, p.1 = it.jsonFileName → p.2 = 0 →
    it.isEquipment = true ∧ led.equipmentSlots it.equipmentType = some it.jsonFileName)

/-- C6: on a well-formed ledger, addItem(i, n) followed by
    removeItem(i, n), with 0 < n (so n never exceeds the amount held
    after the add, all amounts being non-negative), returns the
    canonical item map, the inventory buckets and the equipment slots
    to their state before the two calls. -/
theorem addItem_removeItem_roundtrip (led : Ledger) (it : ItemObj) (n : Int)
    (hn : 0 < n) (hwf : LedgerWF led it) :
    (removeItem (addItem led (some it) n).2 (some it) n).2.items = led.items ∧
    (removeItem (addItem led (some it) n).2 (some it) n).2.inventory = led.inventory ∧
    (removeItem (addItem led (some it) n).2 (some it) n).2.equipmentSlots =
      led.equipmentSlots := by
  obtain ⟨hnd, hnonneg, hbucket, hslot, hzero⟩ := hwf
  have hn' : n ≠ 0 := ne_of_gt hn
  cases hex : getExistingItemObj led.items it.jsonFileName with
  | none =>
    have hall : ∀ p ∈ led.items, p.1 ≠ it.jsonFileName :=
      (getExistingItemObj_eq_none_iff _ _).mp hex
    have hadd : (addItem led (some it) n).2 =
        { led with
          items := led.items ++ [(it.jsonFileName, n)],
          inventory := bucketInsert led.inventory it.itemType it.jsonFileName } := by
      simp [addItem, hn', hex]
    have hex2 : getExistingItemObj (led.items ++ [(it.jsonFileName, n)]) it.jsonFileName
        = some n := getExistingItemObj_append_fresh _ _ _ hall
    have hguard : ¬(it.isEquipment = true ∧
        led.equipmentSlots it.equipmentType = some it.jsonFileName) := by
      rintro ⟨-, hs⟩
      obtain ⟨p, hp, hp1⟩ := hslot hs
      exact hall p hp hp1
    have hinvfalse : led.inventory it.itemType it.jsonFileName = false := by
      rcases Bool.eq_false_or_eq_true (led.inventory it.itemType it.jsonFileName) with
        hb | hb
      · obtain ⟨p, hp, hp1, -⟩ := hbucket.mp hb
        exact absurd hp1 (hall p hp)
      · exact hb
    rw [hadd]
    simp only [removeItem, if_neg hn', hex2, sub_self, reduceIte, if_neg hguard]
    refine ⟨?_, ?_, trivial⟩
    · rw [setItemAmount_append_fresh _ _ _ _ hall]
      exact eraseItem_append_fresh _ _ _ hall
    · exact bucketErase_bucketInsert_of_false _ _ _ hinvfalse
  | some a =>
    have hmem : (it.jsonFileName, a) ∈ led.items := getExistingItemObj_mem _ _ _ hex
    have hadd : (addItem led (some it) n).2 =
        { led with
          items := setItemAmount led.items it.jsonFileName (a + n),
          inventory := bucketInsert led.inventory it.itemType it.jsonFileName } := by
      simp [addItem, hn', hex]
    have hex2 : getExistingItemObj (setItemAmount led.items it.jsonFileName (a + n))
        it.jsonFileName = some (a + n) :=
      getExistingItemObj_setItemAmount _ _ _ _ hex
    have hfinal : a + n - n = a := by ring
    by_cases haz : a = 0
    · subst haz
      have hkeep : it.isEquipment = true ∧
          led.equipmentSlots it.equipmentType = some it.jsonFileName :=
        hzero _ hmem rfl rfl
      have hinvfalse : led.inventory it.itemType it.jsonFileName = false := by
        rcases Bool.eq_false_or_eq_true (led.inventory it.itemType it.jsonFileName) with
          hb | hb
        · obtain ⟨p, hp, hp1, hppos⟩ := hbucket.mp hb
          have : p = (it.jsonFileName, 0) := nodupKeys_eq_of_mem _ hnd p _ hp hmem hp1
          rw [this] at hppos
          exact absurd hppos (lt_irrefl 0)
        · exact hb
      rw [hadd]
      simp only [removeItem, if_neg hn', hex2, hfinal, reduceIte, if_pos hkeep]
      refine ⟨?_, ?_, trivial⟩
      · rw [setItemAmount_setItemAmount]
        exact setItemAmount_self _ _ _ hex
      · exact bucketErase_bucketInsert_of_false _ _ _ hinvfalse
    · have hapos : 0 < a := lt_of_le_of_ne (hnonneg _ hmem) (Ne.symm haz)
      have hinvtrue : led.inventory it.itemType it.jsonFileName = true :=
        hbucket.mpr ⟨(it.jsonFileName, a), hmem, rfl, hapos⟩
      rw [hadd]
      simp only [removeItem, if_neg hn', hex2, hfinal, if_neg haz]
      refine ⟨?_, ?_, trivial⟩
      · rw [setItemAmount_setItemAmount]
        exact setItemAmount_self _ _ _ hex
      · exact bucketInsert_of_true _ _ _ hinvtrue

/-- A live physics fixture: its identity plus the collision filter
    data the redefine functions read (`GetFilterData()`). -/
structure Fixture where
  id : Nat
  categoryBits : Nat
  maskBits : Nat
  deriving DecidableEq, Repr

/-- The per-character fixture array `_fixtures` indexed by
    {BODY, FEET, WEAPON}, plus the ids of fixtures destroyed so far and
    a fresh-id counter for newly built fixtures. -/
structure FixtureState where
  bodyFixture : Option Fixture
  feetFixture : Option Fixture
  weaponFixture : Option Fixture
  destroyedFixtureIds : List Nat
  nextFixtureId : Nat
  deriving DecidableEq, Repr

/-- Embedding of `category_bits::kFeet` (CategoryBits.h; the exact value is
    immaterial to the verified property). -/
def kFeetCategoryBits : Nat := 2

/-- Embedding of `b2Body::DestroyFixture` applied to a slot: records the destroyed
    fixture's id (a null argument would be undefined behavior in Box2D
    and records nothing here). -/
def destroyFixture (destroyed : List Nat) : Option Fixture → List Nat
  | none => destroyed
  | some f => destroyed ++ [f.id]

/-- Embedding of `Character::redefineFeetFixture` (Character.cc lines 241-261): if a
    feet fixture exists, remembers its mask bits for reuse, then calls
    `_body->DestroyFixture(_fixtures[FixtureType::BODY])` and nulls the
    BODY slot (sic — the BODY slot, not the FEET slot), and finally
    builds a fresh feet fixture into the FEET slot with the remembered
    (or supplied) mask bits. -/
def redefineFeetFixture (st : FixtureState) (feetMaskBits : Nat) : FixtureState :=
  let maskBits :=
    match st.feetFixture with
    | some f => f.maskBits
    | none => feetMaskBits
  let st1 :=
    if st.feetFixture.isSome then
      { st with
        bodyFixture := none,
        destroyedFixtureIds := destroyFixture st.destroyedFixtureIds st.bodyFixture }
    else
      st
  { st1 with
    feetFixture := some ⟨st1.nextFixtureId, kFeetCategoryBits, maskBits⟩,
    nextFixtureId := st1.nextFixtureId + 1 }

/-- Concrete fixture state for C8: body fixture id 0, feet fixture id 1
    (mask bits 20), weapon fixture id 2. -/
def fixtureStateC8 : FixtureState :=
  { bodyFixture := some ⟨0, 1, 10⟩,
    feetFixture := some ⟨1, 2, 20⟩,
    weaponFixture := some ⟨2, 4, 30⟩,
    destroyedFixtureIds := [],
    nextFixtureId := 3 }

/-- C8 (code defect, flagged by the spec's open question): on a
    character that already has a feet fixture, `redefineFeetFixture`
    destroys fixture 0 — the BODY-slot fixture — and nulls the BODY
    slot, while the previous feet fixture (id 1) is never destroyed;
    the feet slot is rebuilt with the remembered mask bits (20, not the
    supplied 99) and the weapon slot is untouched. The claim that the
    FEET-slot fixture is the one destroyed and that BODY is unchanged
    is the documented intent, which the code contradicts. -/
theorem redefineFeetFixture_destroys_body_slot :
    (redefineFeetFixture fixtureStateC8 99).bodyFixture = none ∧
    (redefineFeetFixture fixtureStateC8 99).destroyedFixtureIds = [0] ∧
    1 ∉ (redefineFeetFixture fixtureStateC8 99).destroyedFixtureIds ∧
    (redefineFeetFixture fixtureStateC8 99).feetFixture =
      some ⟨3, kFeetCategoryBits, 20⟩ ∧
    (redefineFeetFixture fixtureStateC8 99).weaponFixture =
      fixtureStateC8.weaponFixture := by
  decide

/-- A concrete character used to instantiate the proved theorems:
    health 50 of 100, all behavioral flags clear, at rest, facing
    right, shown on the map. -/
def baseChar : Character :=
  { profile :=
      { health := 50, fullHealth := 100, magicka := 10, fullMagicka := 30,
        stamina := 20, fullStamina := 40, baseMeleeDamage := 20,
        moveSpeed := 25/100, jumpHeight := 38/10, attackForce := 13/10,
        attackDelay := 1/5 },
    isShownOnMap := true, isKilled := false, isSetToKill := false,
    isInvincible := false, isBlocking := false, isHitWhileBlocking := false,
    isTakingDamage := false, isTakingDamageFromTraps := false, isStunned := false,
    isRunningIntroAnimation := false, isGettingUpFromFalling := false,
    isAttacking := false, isUsingSkill := false, isDodgingBackward := false,
    isDodgingForward := false, isJumping := false, isCrouching := false,
    isStartRunning := false, isStopRunning := false, isFacingRight := true,
    isOnGround := true, isAlerted := false,
    vx := 0, vy := 0, prevVx := 0, prevVy := 0,
    overridingAttackState := none, currentState := State.IDLE,
    previousState := State.IDLE, hasWeaponEquipped := false,
    weaponBonusPhysicalDamage := 0, hasUnarmedAttackAnimation := false,
    statsRegenTimer := 0, baseRegenDeltaHealth := 5, baseRegenDeltaMagicka := 5,
    baseRegenDeltaStamina := 5, bodyAwake := true, spriteFlippedX := false,
    weaponFixtureRebuildCount := 0, dispatchedAnimation := none,
    inRangeTargets := [], cancelAttackCallbackIds := [],
    inflictDamageCallbackIds := [], nextCallbackId := 0,
    bodyFixtureMarkedDestroyed := false }

/-- Concrete character for the C9 counterexample: profile move speed
    1/1000, previous horizontal velocity 1/50 (at or above the 0.01
    threshold), current 1/200 (below the threshold but above
    4 × moveSpeed = 1/250), facing right and moving right. -/
def slowMoverC9 : Character :=
  { baseChar with
    profile := { baseChar.profile with moveSpeed := 1/1000 },
    vx := 1/200,
    prevVx := 1/50 }

/-- C9 counterexample: at `slowMoverC9` the stop-running override does
    trigger the RUNNING_STOP transition although the current horizontal
    speed exceeds 4 times the profile move speed — refuting the
    claimed "does not exceed 4 × move speed" conjunct: the
    `needToStopRunning` guard in the source is dead code. -/
theorem stopRunning_speed_guard_counterexample :
    (maybeOverrideCurrentStateWithStopRunningState slowMoverC9).isStopRunning = true ∧
    ¬(|slowMoverC9.vx| ≤ slowMoverC9.profile.moveSpeed * 4) := by
  constructor
  · norm_num [maybeOverrideCurrentStateWithStopRunningState, stopRunning, slowMoverC9,
      baseChar, abs_of_pos]
  · norm_num [slowMoverC9, baseChar, abs_of_pos]

/-- C9 as amended: the out-of-band RUNNING_STOP transition is triggered
    if and only if the horizontal velocity crossed from at-or-above the
    0.01 threshold (previous tick) to below it (current tick) while the
    character still faces the direction of travel; the source's 4× move
    speed guard is inert (its flag is initialized true and never set to
    false), so no speed cap applies. -/
theorem stopRunning_trigger_characterization (c : Character)
    (h : c.isStopRunning = false) :
    (maybeOverrideCurrentStateWithStopRunningState c).isStopRunning = true ↔
      (|c.prevVx| ≥ (1/100 : ℚ) ∧ |c.vx| < (1/100 : ℚ) ∧
        ((c.isFacingRight = true ∧ 0 < c.vx) ∨
          (c.isFacingRight = false ∧ c.vx < 0))) := by
  unfold maybeOverrideCurrentStateWithStopRunningState stopRunning
  dsimp only
  simp only [ite_self, Bool.not_true, Bool.false_eq_true, if_false]
  split_ifs with hcond
  · simp only [Bool.and_eq_true, Bool.or_eq_true, decide_eq_true_eq,
      Bool.not_eq_true'] at hcond
    simp only [true_iff]
    tauto
  · simp only [Bool.and_eq_true, Bool.or_eq_true, decide_eq_true_eq,
      Bool.not_eq_true'] at hcond
    rw [h]
    simp only [Bool.false_eq_true, false_iff]
    tauto

/-- Embedding of `Character::stopMotion` (Character.cc lines 800-802). -/
def stopMotion (c : Character) : Character :=
  { c with bodyAwake := false }

/-- Embedding of `kSlopeStopMinVelocity` = 0.05 (Character.cc line 72). -/
def kSlopeStopMinVelocity : ℚ := 1/20

/-- The slope-stop phase of `update` (Character.cc lines 72-77): a
    grounded character with near-zero velocity on both axes is put to
    physics sleep. -/
def updateSlopeStop (c : Character) : Character :=
  if c.isOnGround && |c.vx| < kSlopeStopMinVelocity &&
      |c.vy| < kSlopeStopMinVelocity then
    stopMotion c
  else
    c

/-- The sprite-flip phase of `update` (Character.cc lines 79-86):
    synchronizes the horizontal flip with the facing direction,
    rebuilding the weapon fixture on each flip. -/
def updateSpriteFlip (c : Character) : Character :=
  if !c.isFacingRight && !c.spriteFlippedX then
    { c with spriteFlippedX := true,
             weaponFixtureRebuildCount := c.weaponFixtureRebuildCount + 1 }
  else if c.isFacingRight && c.spriteFlippedX then
    { c with spriteFlippedX := false,
             weaponFixtureRebuildCount := c.weaponFixtureRebuildCount + 1 }
  else
    c

/-- The stats-regeneration phase of `update` (Character.cc lines
    93-103): every 5 accumulated seconds, resets the timer and
    regenerates health, magicka and stamina by the base deltas. -/
def updateStatsRegen (c : Character) (delta : ℚ) : Character :=
  let timer := c.statsRegenTimer + delta
  if timer ≥ 5 then
    regenStamina
      (regenMagicka
        (regenHealth { c with statsRegenTimer := 0 } c.baseRegenDeltaHealth)
        c.baseRegenDeltaMagicka)
      c.baseRegenDeltaStamina
  else
    { c with statsRegenTimer := timer }

/-- The trap-damage phase of `update` (Character.cc lines 105-111):
    receives each passive damage value exposed by an in-range trigger
    interactable (a null-source `receiveDamage`). -/
def updateTrapDamage (c : Character) (trapDamages : List Int) : Character :=
  trapDamages.foldl (fun acc d => (receiveDamageFromTrap acc d).receiver) c

/-- The state-machine phase of `update` (Character.cc lines 115-162):
    frozen while a skill is active; otherwise rolls the state pair,
    resolves the new state, applies the two post-resolution overrides,
    records the previous body velocity, and dispatches an animation on
    any state change. -/
def updateStateMachine (c : Character) : Character :=
  if c.isUsingSkill then
    c
  else
    let c := { c with previousState := c.currentState }
    let c := { c with currentState := determineState c }
    let c := maybeOverrideCurrentStateWithAttackingMidairState c
    let c := maybeOverrideCurrentStateWithStopRunningState c
    let c := { c with prevVx := c.vx, prevVy := c.vy }
    if c.previousState ≠ c.currentState then
      { c with dispatchedAnimation := some c.currentState }
    else
      c

/-- Embedding of `Character::update` (Character.cc lines 67-163),
    composed from its phases in source order after the early-out guard.
    Inputs besides the elapsed delta: the passive damage values exposed
    this tick by in-range trigger interactables. HUD refresh, sprite
    positioning and the combo system belong to external collaborators
    with no character-state footprint in this model. -/
def update (c : Character) (delta : ℚ) (trapDamages : List Int) : Character :=
  if !c.isShownOnMap || c.isKilled then
    c
  else
    updateStateMachine
      (updateTrapDamage
        (updateStatsRegen (updateSpriteFlip (updateSlopeStop c)) delta)
        trapDamages)

/-- C10: a call to `update(delta)` on a character that is not shown on
    the map or is already killed is a complete no-op on character
    state: no stat regeneration, no trap/passive damage intake, no
    state or animation transition. -/
theorem update_noop_when_hidden_or_killed (c : Character) (delta : ℚ)
    (trapDamages : List Int)
    (h : c.isShownOnMap = false ∨ c.isKilled = true) :
    update c delta trapDamages = c := by
  unfold update
  rcases h with h | h <;> simp [h]

/-- A damage/regeneration history for exercising C1: a 70-damage hit
    from a live source (taking health from 50 to 0, floored), then a
    30-point regeneration tick (capped against fullHealth). -/
def healthOpsC1 : List HealthOp :=
  [HealthOp.damage (some ⟨false, false⟩) 70 (1/5), HealthOp.regen 30]

theorem health_stays_in_bounds_witness :
    (0 ≤ baseChar.profile.health ∧
      baseChar.profile.health ≤ baseChar.profile.fullHealth ∧
      ∀ op ∈ healthOpsC1, healthOpNonneg op = true) ∧
    (0 ≤ (healthOpsC1.foldl applyHealthOp baseChar).profile.health ∧
      (healthOpsC1.foldl applyHealthOp baseChar).profile.health ≤
        (healthOpsC1.foldl applyHealthOp baseChar).profile.fullHealth) :=
  ⟨⟨by decide, by decide, by decide⟩,
   health_stays_in_bounds baseChar healthOpsC1 (by decide) (by decide) (by decide)⟩

theorem inflictDamage_schedules_hits_witness :
    (0 : Int) < 3 ∧
    ((inflictDamageMulti baseChar (some 7) 20 3 (1/10)).returnValue = true ∧
      (inflictDamageMulti baseChar (some 7) 20 3 (1/10)).scheduledDelays.length =
        (3 : Int).toNat ∧
      (∀ i : Nat, i < (3 : Int).toNat →
        (inflictDamageMulti baseChar (some 7) 20 3 (1/10)).scheduledDelays[i]? =
          some (baseChar.profile.attackDelay + (1/10) * ((i : ℕ) : ℚ))) ∧
      (∀ td inRange : Bool,
        deferredHitSkipped td inRange = true ↔ (td = true ∨ inRange = false))) :=
  ⟨by decide, inflictDamage_schedules_hits baseChar 7 20 3 (1/10) (by decide)⟩

/-- A concrete invincible character for the C4 witness. -/
def invincibleChar : Character := { baseChar with isInvincible := true }

theorem receiveDamage_rejected_no_change_witness :
    invincibleChar.isInvincible = true ∧
    receiveDamage invincibleChar none 10 (1/5) = ⟨false, invincibleChar, false, false⟩ :=
  ⟨rfl, receiveDamage_rejected_no_change invincibleChar none 10 (1/5)
    (Or.inr (Or.inl rfl))⟩

/-- The empty ledger. -/
def emptyLedger : Ledger :=
  { items := [], inventory := fun _ _ => false, equipmentSlots := fun _ => none }

/-- A concrete non-equipment item definition. -/
def goldCoinItem : ItemObj :=
  { jsonFileName := "gold_coin.json", itemType := 3, isEquipment := false,
    equipmentType := 0, amount := 1 }

theorem addItem_merges_duplicate_definitions_witness :
    ((0 : Int) < 2 ∧ (0 : Int) < 5 ∧
      goldCoinItem.jsonFileName = goldCoinItem.jsonFileName ∧
      getExistingItemObj emptyLedger.items goldCoinItem.jsonFileName = none) ∧
    ((addItem (addItem emptyLedger (some goldCoinItem) 2).2
        (some goldCoinItem) 5).2.items.countP
          (fun p => p.1 == goldCoinItem.jsonFileName) = 1 ∧
      (goldCoinItem.jsonFileName, 2 + 5) ∈
        (addItem (addItem emptyLedger (some goldCoinItem) 2).2
          (some goldCoinItem) 5).2.items) :=
  ⟨⟨by decide, by decide, rfl, rfl⟩,
   addItem_merges_duplicate_definitions emptyLedger goldCoinItem goldCoinItem 2 5
     (by decide) (by decide) rfl rfl⟩

/-- A concrete equipment item definition. -/
def swordItem : ItemObj :=
  { jsonFileName := "iron_sword.json", itemType := 1, isEquipment := true,
    equipmentType := 0, amount := 1 }

/-- A well-formed ledger holding two of `swordItem`, bucketed, nothing
    equipped. -/
def swordLedger : Ledger :=
  { items := [("iron_sword.json", 2)],
    inventory := fun t n2 => decide (t = 1) && decide (n2 = "iron_sword.json"),
    equipmentSlots := fun _ => none }

theorem addItem_removeItem_roundtrip_witness :
    (0 : Int) < 2 ∧ LedgerWF swordLedger swordItem ∧
    ((removeItem (addItem swordLedger (some swordItem) 2).2 (some swordItem) 2).2.items =
        swordLedger.items ∧
      (removeItem (addItem swordLedger (some swordItem) 2).2
        (some swordItem) 2).2.inventory = swordLedger.inventory ∧
      (removeItem (addItem swordLedger (some swordItem) 2).2
        (some swordItem) 2).2.equipmentSlots = swordLedger.equipmentSlots) :=
  ⟨by decide, by unfold LedgerWF; decide,
   addItem_removeItem_roundtrip swordLedger swordItem 2 (by decide)
     (by unfold LedgerWF; decide)⟩

/-- A concrete airborne character for the C7 witness. -/
def airChar : Character := { baseChar with isJumping := true }

theorem midair_attack_state_persists_witness :
    (airChar.isJumping = true ∧ airChar.isSetToKill = false ∧
      airChar.isHitWhileBlocking = false ∧ isAttackingDisallowed airChar = false) ∧
    (determineState (attack airChar State.ATTACKING_MIDAIR 1 (1/10) 0).2 =
        State.ATTACKING_MIDAIR ∧
      (∀ d : Character, d.previousState = State.ATTACKING_MIDAIR →
        d.currentState = State.ATTACKING →
        (maybeOverrideCurrentStateWithAttackingMidairState d).currentState =
          State.ATTACKING_MIDAIR)) :=
  ⟨⟨rfl, rfl, rfl, by decide⟩,
   midair_attack_state_persists airChar rfl rfl rfl (by decide) 1 (1/10) 0⟩

theorem stopRunning_trigger_characterization_witness :
    baseChar.isStopRunning = false ∧
    ((maybeOverrideCurrentStateWithStopRunningState baseChar).isStopRunning = true ↔
      (|baseChar.prevVx| ≥ (1/100 : ℚ) ∧ |baseChar.vx| < (1/100 : ℚ) ∧
        ((baseChar.isFacingRight = true ∧ 0 < baseChar.vx) ∨
          (baseChar.isFacingRight = false ∧ baseChar.vx < 0)))) :=
  ⟨rfl, stopRunning_trigger_characterization baseChar rfl⟩

/-- A concrete character not shown on the map, for the C10 witness. -/
def hiddenChar : Character := { baseChar with isShownOnMap := false }

theorem update_noop_when_hidden_or_killed_witness :
    hiddenChar.isShownOnMap = false ∧ update hiddenChar 1 [5] = hiddenChar :=
  ⟨rfl, update_noop_when_hidden_or_killed hiddenChar 1 [5] (Or.inl rfl)⟩

end Vigilante
